import Mathlib

/-!
Verification of the amphtml fragment consisting of
`extensions/amp-base-carousel/0.1/dimensions.js` (carousel geometry and
scrolling helpers) and `extensions/amp-facebook/0.1/amp-facebook.js`
(the amp-facebook iframe component).

The JavaScript is shallowly embedded: elements are modelled by their
bounding client rects (rational coordinates), scrollable elements by a
pair of scroll offsets, and the amp-facebook component by a small record
of its private fields.  Helper functions imported from parts of the
repository that are not in this fragment (`mod`, `getData`, `isObject`,
`tryParseJson`, `userAssert`, `listenFor`, `forceChangeHeight`,
`toggleLoading`) are modelled from the spec and their documented
semantics, and are marked as such.
-/

namespace Carousel

/-- `Axis` enum from dimensions.js: `X: 0, Y: 1`. -/
inductive Axis
  | X
  | Y
deriving DecidableEq, Repr

/-- `Alignment` enum from dimensions.js: `START: 'start', CENTER: 'center'`. -/
inductive Alignment
  | START
  | CENTER
deriving DecidableEq, Repr

/-- The result of `getBoundingClientRect()` for an element: the six fields
destructured by `getDimension`.  No relation between `width` and
`right - left` is assumed, since the code assumes none. -/
structure Rect where
  left : ℚ
  right : ℚ
  width : ℚ
  top : ℚ
  bottom : ℚ
  height : ℚ
deriving DecidableEq, Repr

instance : Inhabited Rect := ⟨⟨0, 0, 0, 0, 0, 0⟩⟩

/-- `DimensionDef`: `{start, end, length}` (`end` is renamed `end_`,
being a Lean keyword). -/
structure Dimension where
  start : ℚ
  end_ : ℚ
  length : ℚ
deriving DecidableEq, Repr

/-- `getDimension(axis, el)` from dimensions.js lines 50-59. -/
def getDimension (axis : Axis) (el : Rect) : Dimension :=
  { start := if axis = Axis.X then el.left else el.top
    end_ := if axis = Axis.X then el.right else el.bottom
    length := if axis = Axis.X then el.width else el.height }

/-- `getCenter(axis, el)` from dimensions.js lines 66-69. -/
def getCenter (axis : Axis) (el : Rect) : ℚ :=
  ((getDimension axis el).start + (getDimension axis el).end_) / 2

/-- `getStart(axis, el)` from dimensions.js lines 76-79. -/
def getStart (axis : Axis) (el : Rect) : ℚ :=
  (getDimension axis el).start

/-- `getPosition(axis, alignment, el)` from dimensions.js lines 88-92. -/
def getPosition (axis : Axis) (alignment : Alignment) (el : Rect) : ℚ :=
  if alignment = Alignment.START then getStart axis el else getCenter axis el

/-- `setTransformTranslateStyle(axis, el, delta)` from dimensions.js lines
113-122, modelled by its observable effect: the `(deltaX, deltaY)` pair
written into the element's `translate(${deltaX}px, ${deltaY}px)` style. -/
def setTransformTranslateStyle (axis : Axis) (delta : ℚ) : ℚ × ℚ :=
  (if axis = Axis.X then delta else 0, if axis = Axis.X then 0 else delta)

/-- `overlaps(axis, el, position)` from dimensions.js lines 130-134:
`start <= position && position < end` (the comment in the source says the
end point is deliberately ignored, being shared with the adjacent
element). -/
def overlaps (axis : Axis) (el : Rect) (position : ℚ) : Bool :=
  let d := getDimension axis el
  decide (d.start ≤ position) && decide (position < d.end_)

/-- `getPercentageOffsetFromAlignment(axis, alignment, container, el)` from
dimensions.js lines 143-153. -/
def getPercentageOffsetFromAlignment (axis : Axis) (alignment : Alignment)
    (container el : Rect) : ℚ :=
  (getPosition axis alignment el - getPosition axis alignment container) /
    (getDimension axis el).length

/-- The scrollable state of an element: its `scrollLeft` and `scrollTop`
properties. -/
structure ScrollState where
  scrollLeft : ℚ
  scrollTop : ℚ
deriving DecidableEq, Repr

/-- `getScrollPosition(axis, el)` from dimensions.js lines 202-208. -/
def getScrollPosition (axis : Axis) (el : ScrollState) : ℚ :=
  if axis = Axis.X then el.scrollLeft else el.scrollTop

/-- `setScrollPosition(axis, el, position)` from dimensions.js lines
216-222. -/
def setScrollPosition (axis : Axis) (el : ScrollState) (position : ℚ) :
    ScrollState :=
  if axis = Axis.X then { el with scrollLeft := position }
  else { el with scrollTop := position }

/-- `updateScrollPosition(axis, el, delta)` from dimensions.js lines
230-232. -/
def updateScrollPosition (axis : Axis) (el : ScrollState) (delta : ℚ) :
    ScrollState :=
  setScrollPosition axis el (getScrollPosition axis el + delta)

/-- `scrollContainerToElement(axis, alignment, container, el, offset)` from
dimensions.js lines 244-260.  The container element carries both a rect
(`containerRect`) and scroll offsets (`containerScroll`), split into two
arguments here. -/
def scrollContainerToElement (axis : Axis) (alignment : Alignment)
    (containerRect : Rect) (containerScroll : ScrollState) (el : Rect)
    (offset : ℚ) : ScrollState :=
  let startAligned := alignment = Alignment.START
  let length := (getDimension axis el).length
  let snapOffset := if startAligned then getStart axis el else getCenter axis el
  let scrollOffset :=
    if startAligned then getStart axis containerRect
    else getCenter axis containerRect
  let delta := snapOffset - scrollOffset - offset * length
  updateScrollPosition axis containerScroll delta

/-- The transposition of a rect: the X-axis data (`left`, `right`, `width`)
and the Y-axis data (`top`, `bottom`, `height`) swap places. -/
def transposeRect (r : Rect) : Rect :=
  { left := r.top, right := r.bottom, width := r.height
    top := r.left, bottom := r.right, height := r.width }

/-- The other axis: X for Y and Y for X. -/
def otherAxis : Axis → Axis
  | Axis.X => Axis.Y
  | Axis.Y => Axis.X

/-- A concrete rect used as a counterexample input: a unit square at the
origin. -/
def unitRect : Rect :=
  { left := 0, right := 1, width := 1, top := 0, bottom := 1, height := 1 }

/-- Modelled from the spec: the positive-modulo helper `mod(a, b)` that
dimensions.js imports from `src/core/math`, which is not part of this
fragment.  For `b > 0` it returns the representative of `a` modulo `b`
lying in `[0, b)` (so that `mod(startIndex - i, children.length)` is a
valid array index); `Int.emod` has exactly this behaviour on a positive
modulus. -/
def mod (a b : Int) : Int := a % b

/-- The `for` loop of `findOverlappingIndex` (dimensions.js lines
182-193), with `fuel` remaining iterations and `i` the current loop
counter: check `nextIndex = mod(startIndex + i, children.length)`, then
`prevIndex = mod(startIndex - i, children.length)`, then continue with
`i + 1`.  Falling off the loop returns `undefined` (`none`). -/
def findOverlappingIndexAux (axis : Axis) (pos : ℚ) (children : List Rect)
    (startIndex : Nat) : Nat → Nat → Option Nat
  | _, 0 => none
  | i, fuel + 1 =>
    let n := children.length
    let nextIndex := (mod ((startIndex : Int) + (i : Int)) (n : Int)).toNat
    let prevIndex := (mod ((startIndex : Int) - (i : Int)) (n : Int)).toNat
    if overlaps axis (children.getD nextIndex default) pos then some nextIndex
    else if overlaps axis (children.getD prevIndex default) pos then
      some prevIndex
    else findOverlappingIndexAux axis pos children startIndex (i + 1) fuel

/-- `findOverlappingIndex(axis, alignment, container, children, startIndex)`
from dimensions.js lines 167-194.  The loop condition
`i <= children.length / 2` for integer `i` and floating-point division is
`i ≤ ⌊children.length / 2⌋`, so the loop body runs for
`i = 1 .. children.length / 2` (Nat division); that iteration count is the
initial fuel. -/
def findOverlappingIndex (axis : Axis) (alignment : Alignment)
    (container : Rect) (children : List Rect) (startIndex : Nat) :
    Option Nat :=
  let pos := getPosition axis alignment container
  if overlaps axis (children.getD startIndex default) pos then some startIndex
  else
    findOverlappingIndexAux axis pos children startIndex 1
      (children.length / 2)

/-- The index reached from `s` by moving `d` steps forward (towards larger
indices) among `n` children, wrapping around. -/
def fwdIndex (n s d : Nat) : Nat := (s + d) % n

/-- The index reached from `s` by moving `d` steps backward among `n`
children, wrapping around. -/
def bwdIndex (n s d : Nat) : Nat := (s + (n - d)) % n

/-- Circular distance between indices `s` and `k` among `n` children: the
smaller of the forward and backward step counts from `s` to `k` around the
cycle (for `s, k < n`). -/
def cdist (n s k : Nat) : Nat := min ((k + n - s) % n) ((s + n - k) % n)

/-- Concrete children used as witness inputs for the overlap search: the
first of three unit-width slides `[0,1)`, `[1,2)`, `[2,3)` laid out along
the X axis. -/
def slide0 : Rect :=
  { left := 0, right := 1, width := 1, top := 0, bottom := 50, height := 50 }

/-- The second witness slide, `[1,2)`. -/
def slide1 : Rect :=
  { left := 1, right := 2, width := 1, top := 0, bottom := 50, height := 50 }

/-- The third witness slide, `[2,3)`. -/
def slide2 : Rect :=
  { left := 2, right := 3, width := 1, top := 0, bottom := 50, height := 50 }

/-- A concrete container whose start point `1` lies inside the second
witness slide. -/
def containerRect : Rect :=
  { left := 1, right := 2, width := 1, top := 0, bottom := 50, height := 50 }

end Carousel

namespace Facebook

/-- A JavaScript value, as far as the amp-facebook message handling
observes one: `undefined`, `null`, booleans, (integer) numbers, strings,
and plain objects given by their property list. -/
inductive JSVal
  | undefined
  | nullv
  | boolv (b : Bool)
  | num (n : Int)
  | str (s : String)
  | obj (fields : List (String × JSVal))

/-- JavaScript truthiness for the modelled values: `undefined`, `null`,
`false`, `0` and the empty string are falsy, everything else (including
every object) is truthy. -/
def truthy : JSVal → Bool
  | .undefined => false
  | .nullv => false
  | .boolv b => b
  | .num n => decide (n ≠ 0)
  | .str s => decide (s ≠ "")
  | .obj _ => true

/-- Truthiness of an optional value, where `none` stands for a JavaScript
expression that evaluated to `undefined`. -/
def optTruthy : Option JSVal → Bool
  | none => false
  | some v => truthy v

/-- Modelled from the spec: the `isObject` helper imported from
`src/core/types`, which is not part of this fragment.  It recognises
exactly plain objects (`Object.prototype.toString` yielding
`'[object Object]'`); every non-object value is rejected. -/
def isObject : JSVal → Bool
  | .obj _ => true
  | _ => false

/-- JavaScript property access `v[key]` as used by the handler: a lookup
on a plain object, `undefined` for a missing property, and `undefined`
for property access on the modelled primitive values (a string has no
`action` or `height` property). -/
def getProp (v : JSVal) (key : String) : JSVal :=
  match v with
  | .obj fields => (fields.lookup key).getD .undefined
  | _ => .undefined

/-- Modelled from the spec: `tryParseJson` imported from
`src/core/types/object/json`, which is not part of this fragment.  It
evaluates `JSON.parse(String(value))` and returns `undefined` (`none`)
when parsing throws.  The host JSON parser for genuine strings is
abstracted as the `jsonParse` argument; for the other modelled values,
`String(value)` round-trips numbers, booleans and `null`, while
`'undefined'` and `'[object Object]'` make `JSON.parse` throw. -/
def tryParseJson (jsonParse : String → Option JSVal) : JSVal → Option JSVal
  | .str s => jsonParse s
  | .num n => some (.num n)
  | .boolv b => some (.boolv b)
  | .nullv => some .nullv
  | .undefined => none
  | .obj _ => none

/-- JavaScript loose equality `v == lit` against a non-numeric string
literal, as used in `eventData['action'] == 'ready'`: only a string with
the same characters compares equal (`undefined`, `null`, booleans and
numbers coerce through `NaN` against a non-numeric string, and a plain
object stringifies to `'[object Object]'`). -/
def looseEqStr (v : JSVal) (lit : String) : Bool :=
  match v with
  | .str s => decide (s = lit)
  | _ => false

/-- The component state of `AmpFacebook`: the private fields `iframe_`
(the attached iframe, identified by its `contentWindow`, or `null`) and
`toggleLoadingCounter_`, together with the observable loading-indicator
state set by `toggleLoading` and the last height passed to
`forceChangeHeight` (both methods live on the framework base class and
are modelled from the spec by these two fields). -/
structure FBState where
  iframe : Option Nat
  toggleLoadingCounter : Nat
  loading : Bool
  height : Option JSVal

/-- A `message` event as the handler observes it: its `source` window
(identified by the same ids as iframe content windows) and its `data`. -/
structure MessageEvent where
  source : Nat
  data : JSVal

/-- The guard on amp-facebook.js lines 129-131:
`this.iframe_ && event.source != this.iframe_.contentWindow`. -/
def foreignSource : Option Nat → Nat → Bool
  | some w, source => decide (source ≠ w)
  | none, _ => false

/-- Lines 132-148 of `handleFacebookMessages_`, after the source guard:
`getData(event)` is `event.data`; a falsy `eventData` returns early; a
non-object `eventData` is run through `tryParseJson` and a falsy
`parsedEventData` returns early; then the handler compares
`eventData['action']` (note: the raw event data, not the parsed data)
against `'ready'` and, on a match, calls `toggleLoading(false)` and, in
test mode, increments `toggleLoadingCounter_`.  The returned flag records
whether `toggleLoading(false)` was called. -/
def handleEventData (jsonParse : String → Option JSVal) (testMode : Bool)
    (st : FBState) (eventData : JSVal) : FBState × Bool :=
  if !truthy eventData then (st, false)
  else
    let parsedEventData : Option JSVal :=
      if isObject eventData then some eventData
      else tryParseJson jsonParse eventData
    if !optTruthy parsedEventData then (st, false)
    else if looseEqStr (getProp eventData "action") "ready" then
      ({ st with
          loading := false
          toggleLoadingCounter :=
            if testMode then st.toggleLoadingCounter + 1
            else st.toggleLoadingCounter },
        true)
    else (st, false)

/-- `handleFacebookMessages_(event)` from amp-facebook.js lines 128-149:
ignore events from a foreign source while an iframe is attached, then
process the event data. -/
def handleFacebookMessages (jsonParse : String → Option JSVal)
    (testMode : Bool) (st : FBState) (ev : MessageEvent) : FBState × Bool :=
  if foreignSource st.iframe ev.source then (st, false)
  else handleEventData jsonParse testMode st ev.data

/-- Run a sequence of `message` events through the handler, keeping the
resulting component state. -/
def runMessages (jsonParse : String → Option JSVal) (testMode : Bool)
    (st : FBState) (evs : List MessageEvent) : FBState :=
  evs.foldl (fun s ev => (handleFacebookMessages jsonParse testMode s ev).1) st

/-- The condition asserted by `userAssert` in `layoutCallback`
(amp-facebook.js lines 88-94):
`!embedAs || ['post', 'video', 'comment'].indexOf(embedAs) !== -1`, where
`embedAs = getAttribute('data-embed-as')` is `null` (`none`) for a
missing attribute and both `null` and the empty string are falsy. -/
def layoutValidationPasses : Option String → Bool
  | none => true
  | some s =>
    decide (s = "") || decide (s ∈ (["post", "video", "comment"] : List String))

/-- `layoutCallback` from amp-facebook.js lines 87-122, modelled by its
effect on the component state: `userAssert` the `data-embed-as` value (a
thrown user error is `none`), create and attach the iframe (recording its
`contentWindow`), call `toggleLoading(true)` and, in test mode, increment
`toggleLoadingCounter_`. -/
def layoutCallback (testMode : Bool) (embedAs : Option String)
    (iframeWindow : Nat) (st : FBState) : Option FBState :=
  if layoutValidationPasses embedAs then
    some
      { st with
          iframe := some iframeWindow
          loading := true
          toggleLoadingCounter :=
            if testMode then st.toggleLoadingCounter + 1
            else st.toggleLoadingCounter }
  else none

/-- The `embed-size` listener registered by `layoutCallback`
(amp-facebook.js lines 102-109): `(data) => forceChangeHeight(data['height'])`.
`listenFor` delivering the message and `forceChangeHeight` itself are
modelled from the spec ("an `embed-size` message to resize the
container"): the component's height becomes the listener's argument. -/
def embedSizeListener (st : FBState) (data : JSVal) : FBState :=
  { st with height := some (getProp data "height") }

/-- The JSON encoding of the object `{action: 'ready'}` (the load-completion
message of the spec's handshake). -/
def readyJson : String := "\x7b\"action\":\"ready\"\x7d"

/-- The object `{action: 'ready'}` that `readyJson` encodes. -/
def readyObj : JSVal := .obj [("action", .str "ready")]

/-- A concrete JSON parser defined on exactly the one string the
counterexample needs, used to instantiate the abstract host parser in
witnesses. -/
def readyOnlyParse (s : String) : Option JSVal :=
  if s = readyJson then some readyObj else none

/-- A concrete component state right after a successful layout: iframe
with content window `1` attached, loading indicator on. -/
def loadedState : FBState :=
  { iframe := some 1, toggleLoadingCounter := 0, loading := true,
    height := none }

/-- A concrete initial component state, before layout. -/
def initialState : FBState :=
  { iframe := none, toggleLoadingCounter := 0, loading := false,
    height := none }

end Facebook

namespace Carousel

/-- C2. The claim asserts that `overlaps` returns the same result for
`position == start` as for `position == end` whenever `start < end`.  On
the unit square along the X axis (start 0, end 1) this fails: the start
point overlaps and the end point does not, since `overlaps` tests the
half-open interval `start <= position && position < end`. -/
theorem overlaps_boundary_counterexample :
    (getDimension Axis.X unitRect).start < (getDimension Axis.X unitRect).end_ ∧
      overlaps Axis.X unitRect (getDimension Axis.X unitRect).start = true ∧
      overlaps Axis.X unitRect (getDimension Axis.X unitRect).end_ = false := by
  refine ⟨by norm_num [getDimension, unitRect], ?_, ?_⟩ <;>
    simp [overlaps, getDimension, unitRect]

/-- C2 (amended): `overlaps(axis, el, position)` decides membership in the
half-open interval `[start, end)`: it holds exactly when
`start ≤ position < end`, so whenever `start < end` the start boundary
point overlaps and the end boundary point does not. -/
theorem overlaps_halfOpen (axis : Axis) (el : Rect) (position : ℚ) :
    (overlaps axis el position = true ↔
      (getDimension axis el).start ≤ position ∧
        position < (getDimension axis el).end_) ∧
    ((getDimension axis el).start < (getDimension axis el).end_ →
      overlaps axis el (getDimension axis el).start = true ∧
        overlaps axis el (getDimension axis el).end_ = false) := by
  constructor
  · simp [overlaps]
  · intro h
    refine ⟨?_, ?_⟩
    · simp [overlaps]
      exact h
    · simp [overlaps]

/-- C2 (amended) witness at a concrete input: the unit square has
`start < end` along the X axis, and the boundary conclusions hold there. -/
theorem overlaps_halfOpen_witness :
    overlaps Axis.X unitRect (getDimension Axis.X unitRect).start = true ∧
      overlaps Axis.X unitRect (getDimension Axis.X unitRect).end_ = false :=
  (overlaps_halfOpen Axis.X unitRect 0).2 (by norm_num [getDimension, unitRect])

/-- C3. `getPosition(axis, alignment, el)` measures from the start edge for
`Alignment.START` (it equals `getStart`, the `start` field of
`getDimension`) and from the center for `Alignment.CENTER` (it equals
`getCenter`, which is `(start + end) / 2` of `getDimension`). -/
theorem getPosition_alignment (axis : Axis) (el : Rect) :
    getPosition axis Alignment.START el = getStart axis el ∧
      getStart axis el = (getDimension axis el).start ∧
      getPosition axis Alignment.CENTER el = getCenter axis el ∧
      getCenter axis el =
        ((getDimension axis el).start + (getDimension axis el).end_) / 2 := by
  refine ⟨rfl, rfl, ?_, rfl⟩
  simp [getPosition]

/-- C4. The geometry helpers treat the axes symmetrically: `getDimension`
on `Axis.X` equals `getDimension` on `Axis.Y` of the transposed rect (and
vice versa); consequently `getCenter`, `getStart`, `getPosition`,
`overlaps` and `getPercentageOffsetFromAlignment` agree on `Axis.X` and on
`Axis.Y` with the coordinates swapped; and `setTransformTranslateStyle`
along one axis sets the translation component of the other axis to 0. -/
theorem axis_symmetry (el container : Rect) (alignment : Alignment)
    (position delta : ℚ) :
    getDimension Axis.X el = getDimension Axis.Y (transposeRect el) ∧
      getDimension Axis.Y el = getDimension Axis.X (transposeRect el) ∧
      getCenter Axis.X el = getCenter Axis.Y (transposeRect el) ∧
      getStart Axis.X el = getStart Axis.Y (transposeRect el) ∧
      getPosition Axis.X alignment el =
        getPosition Axis.Y alignment (transposeRect el) ∧
      overlaps Axis.X el position =
        overlaps Axis.Y (transposeRect el) position ∧
      getPercentageOffsetFromAlignment Axis.X alignment container el =
        getPercentageOffsetFromAlignment Axis.Y alignment
          (transposeRect container) (transposeRect el) ∧
      (setTransformTranslateStyle Axis.X delta).2 = 0 ∧
      (setTransformTranslateStyle Axis.Y delta).1 = 0 := by
  refine ⟨rfl, rfl, rfl, rfl, ?_, rfl, ?_, rfl, rfl⟩ <;>
    cases alignment <;> rfl

/-- C7. The scroll delta computation is direct arithmetic:
`updateScrollPosition(axis, el, delta)` sets the scroll position along
`axis` to `getScrollPosition(axis, el) + delta` and leaves the other axis
unchanged, and `scrollContainerToElement` adds to the container's scroll
position exactly `position(el) - position(container) - offset * length(el)`
(with `position` given by `getPosition` for the alignment), leaving the
other axis unchanged. -/
theorem scroll_delta_arithmetic (axis : Axis) (alignment : Alignment)
    (el : ScrollState) (delta : ℚ) (containerRect elRect : Rect)
    (containerScroll : ScrollState) (offset : ℚ) :
    updateScrollPosition axis el delta =
      setScrollPosition axis el (getScrollPosition axis el + delta) ∧
    getScrollPosition axis (updateScrollPosition axis el delta) =
      getScrollPosition axis el + delta ∧
    getScrollPosition (otherAxis axis) (updateScrollPosition axis el delta) =
      getScrollPosition (otherAxis axis) el ∧
    getScrollPosition axis
        (scrollContainerToElement axis alignment containerRect
          containerScroll elRect offset) =
      getScrollPosition axis containerScroll +
        (getPosition axis alignment elRect -
          getPosition axis alignment containerRect -
          offset * (getDimension axis elRect).length) ∧
    getScrollPosition (otherAxis axis)
        (scrollContainerToElement axis alignment containerRect
          containerScroll elRect offset) =
      getScrollPosition (otherAxis axis) containerScroll := by
  refine ⟨rfl, ?_, ?_, ?_, ?_⟩ <;>
    cases axis <;> cases alignment <;>
      simp [updateScrollPosition, setScrollPosition, getScrollPosition,
        scrollContainerToElement, getPosition, getStart, getCenter, otherAxis]

namespace C9

/-- `mod` of a cast natural is the natural `%`. -/
theorem mod_natCast (a n : Nat) : (mod (a : Int) (n : Int)).toNat = a % n := by
  unfold mod
  rw [show (a : Int) % (n : Int) = ((a % n : Nat) : Int) from
    (Int.ofNat_emod a n).symm]
  exact Int.toNat_natCast _

/-- `mod(startIndex + i, n)` computes `(startIndex + i) % n`. -/
theorem mod_natCast_add (s i n : Nat) :
    (mod ((s : Int) + (i : Int)) (n : Int)).toNat = (s + i) % n := by
  rw [← Nat.cast_add]
  exact mod_natCast (s + i) n

/-- `mod(startIndex - i, n)` computes the backward index
`(startIndex + (n - i)) % n` whenever `i ≤ n`. -/
theorem mod_natCast_sub (s i n : Nat) (hi : i ≤ n) :
    (mod ((s : Int) - (i : Int)) (n : Int)).toNat = (s + (n - i)) % n := by
  have h2 : (s : Int) - (i : Int) =
      ((s + (n - i) : Nat) : Int) + (n : Int) * (-1) := by
    omega
  unfold mod
  rw [h2, Int.add_mul_emod_self_left]
  exact mod_natCast (s + (n - i)) n

/-- `a % n` in the second period is `a - n`. -/
theorem mod_shift (a n : Nat) (h1 : n ≤ a) (h2 : a < n + n) : a % n = a - n := by
  rw [Nat.mod_eq_sub_mod h1, Nat.mod_eq_of_lt (by omega)]

/-- `(n + a) % n` is `a` for `a < n`. -/
theorem add_mod_left_small (n a : Nat) (h : a < n) : (n + a) % n = a := by
  rw [Nat.add_mod_left, Nat.mod_eq_of_lt h]

/-- Closed form of the forward index. -/
theorem fwdIndex_eq (n s d : Nat) (hs : s < n) (hd : d < n) :
    fwdIndex n s d = if s + d < n then s + d else s + d - n := by
  unfold fwdIndex
  split
  · exact Nat.mod_eq_of_lt (by omega)
  · exact mod_shift _ _ (by omega) (by omega)

/-- Closed form of the backward index. -/
theorem bwdIndex_eq (n s d : Nat) (hs : s < n) (hd1 : 1 ≤ d) (hd2 : d ≤ n) :
    bwdIndex n s d = if d ≤ s then s - d else s + (n - d) := by
  unfold bwdIndex
  split
  · rw [mod_shift _ _ (by omega) (by omega)]
    omega
  · exact Nat.mod_eq_of_lt (by omega)

/-- Closed form of one directed distance `(b + n - a) % n` for
`a, b < n`. -/
theorem cdist_comp_eq (n a b : Nat) (ha : a < n) (hb : b < n) :
    (b + n - a) % n = if a ≤ b then b - a else b + n - a := by
  split
  · have h : b + n - a = n + (b - a) := by omega
    rw [h, add_mod_left_small _ _ (by omega)]
  · exact Nat.mod_eq_of_lt (by omega)

/-- The circular distance from an index to itself is zero. -/
theorem cdist_self (n s : Nat) (hs : s < n) : cdist n s s = 0 := by
  unfold cdist
  rw [cdist_comp_eq n s s hs hs]
  simp

/-- Zero circular distance forces equal indices. -/
theorem cdist_eq_zero (n s k : Nat) (hs : s < n) (hk : k < n)
    (h : cdist n s k = 0) : k = s := by
  unfold cdist at h
  rw [cdist_comp_eq n s k hs hk, cdist_comp_eq n k s hk hs] at h
  split_ifs at h <;> omega

/-- No index is more than half the cycle away. -/
theorem cdist_le_half (n s k : Nat) (hs : s < n) (hk : k < n) :
    2 * cdist n s k ≤ n := by
  unfold cdist
  rw [cdist_comp_eq n s k hs hk, cdist_comp_eq n k s hk hs]
  split_ifs <;> omega

/-- Moving `d ≤ n/2` steps forward lands at circular distance exactly
`d`. -/
theorem cdist_fwd (n s d : Nat) (hs : s < n) (hd1 : 1 ≤ d) (hd2 : 2 * d ≤ n) :
    cdist n s (fwdIndex n s d) = d := by
  have hj := fwdIndex_eq n s d hs (by omega)
  have hjlt : fwdIndex n s d < n := Nat.mod_lt _ (by omega)
  unfold cdist
  rw [cdist_comp_eq n s (fwdIndex n s d) hs hjlt,
    cdist_comp_eq n (fwdIndex n s d) s hjlt hs, hj]
  split_ifs <;> omega

/-- Moving `d ≤ n/2` steps backward lands at circular distance exactly
`d`. -/
theorem cdist_bwd (n s d : Nat) (hs : s < n) (hd1 : 1 ≤ d) (hd2 : 2 * d ≤ n) :
    cdist n s (bwdIndex n s d) = d := by
  have hj := bwdIndex_eq n s d hs hd1 (by omega)
  have hjlt : bwdIndex n s d < n := Nat.mod_lt _ (by omega)
  unfold cdist
  rw [cdist_comp_eq n s (bwdIndex n s d) hs hjlt,
    cdist_comp_eq n (bwdIndex n s d) s hjlt hs, hj]
  split_ifs <;> omega

/-- Every index other than `s` is the forward or the backward index at
its own circular distance. -/
theorem cdist_cases (n s k : Nat) (hs : s < n) (hk : k < n) (hne : k ≠ s) :
    k = fwdIndex n s (cdist n s k) ∨ k = bwdIndex n s (cdist n s k) := by
  have hchar : cdist n s k =
      min (if s ≤ k then k - s else k + n - s)
        (if k ≤ s then s - k else s + n - k) := by
    unfold cdist
    rw [cdist_comp_eq n s k hs hk, cdist_comp_eq n k s hk hs]
  rcases le_or_lt s k with h | h
  · have hsk : s < k := by omega
    rw [hchar]
    simp only [if_pos h, if_neg (by omega : ¬ k ≤ s)]
    rcases le_or_lt (k - s) (s + n - k) with hm | hm
    · left
      rw [min_eq_left hm]
      unfold fwdIndex
      rw [Nat.mod_eq_of_lt (by omega)]
      omega
    · right
      rw [min_eq_right (le_of_lt hm)]
      unfold bwdIndex
      have h2 : n - (s + n - k) = k - s := by omega
      rw [h2, Nat.mod_eq_of_lt (by omega)]
      omega
  · rw [hchar]
    simp only [if_neg (by omega : ¬ s ≤ k), if_pos (le_of_lt h)]
    rcases le_or_lt (k + n - s) (s - k) with hm | hm
    · left
      rw [min_eq_left hm]
      unfold fwdIndex
      have h2 : s + (k + n - s) = n + k := by omega
      rw [h2, add_mod_left_small _ _ hk]
    · right
      rw [min_eq_right (le_of_lt hm)]
      unfold bwdIndex
      have h2 : n - (s - k) = n - s + k := by omega
      rw [h2]
      have h3 : s + (n - s + k) = n + k := by omega
      rw [h3, add_mod_left_small _ _ hk]

/-- Loop invariant for the outward search: entering iteration `i` with
`fuel` iterations left (`i + fuel = ⌊n/2⌋ + 1`) and no overlapping index
at circular distance below `i`, the loop returns `none` only when no
child overlaps at all, and a returned index overlaps, is distance-minimal
among overlapping indices, and is the forward candidate at its distance
unless that candidate does not overlap and it is the backward one. -/
theorem findOverlappingIndexAux_spec (axis : Axis) (pos : ℚ)
    (children : List Rect) (s : Nat) (hs : s < children.length) :
    ∀ fuel i, 1 ≤ i → i + fuel = children.length / 2 + 1 →
      (∀ k, k < children.length → cdist children.length s k < i →
        overlaps axis (children.getD k default) pos = false) →
      (findOverlappingIndexAux axis pos children s i fuel = none →
        ∀ k, k < children.length →
          overlaps axis (children.getD k default) pos = false) ∧
      (∀ j, findOverlappingIndexAux axis pos children s i fuel = some j →
        j < children.length ∧
        overlaps axis (children.getD j default) pos = true ∧
        (∀ k, k < children.length →
          cdist children.length s k < cdist children.length s j →
          overlaps axis (children.getD k default) pos = false) ∧
        (j = fwdIndex children.length s (cdist children.length s j) ∨
          (overlaps axis
              (children.getD
                (fwdIndex children.length s (cdist children.length s j))
                default) pos = false ∧
            j = bwdIndex children.length s
              (cdist children.length s j)))) := by
  intro fuel
  induction fuel with
  | zero =>
    intro i hi1 hisum hinv
    refine ⟨fun _ k hk => hinv k hk ?_, fun j hj => ?_⟩
    · have := cdist_le_half children.length s k hs hk
      omega
    · simp [findOverlappingIndexAux] at hj
  | succ fuel ih =>
    intro i hi1 hisum hinv
    have hn : 0 < children.length := by omega
    have hi2 : 2 * i ≤ children.length := by omega
    have hnext : (mod ((s : Int) + (i : Int))
        ((children.length : Nat) : Int)).toNat =
        fwdIndex children.length s i := mod_natCast_add s i children.length
    have hprev : (mod ((s : Int) - (i : Int))
        ((children.length : Nat) : Int)).toNat =
        bwdIndex children.length s i :=
      mod_natCast_sub s i children.length (by omega)
    simp only [findOverlappingIndexAux, hnext, hprev]
    cases h1 : overlaps axis
        (children.getD (fwdIndex children.length s i) default) pos with
    | true =>
      rw [if_pos rfl]
      refine ⟨fun hcontra => absurd hcontra (by simp), fun j hj => ?_⟩
      have hjeq : j = fwdIndex children.length s i :=
        (Option.some.inj hj).symm
      subst hjeq
      have hd : cdist children.length s (fwdIndex children.length s i) = i :=
        cdist_fwd children.length s i hs hi1 hi2
      refine ⟨Nat.mod_lt _ hn, h1, ?_, Or.inl ?_⟩
      · rw [hd]
        exact hinv
      · rw [hd]
    | false =>
      rw [if_neg (by simp)]
      cases h2 : overlaps axis
          (children.getD (bwdIndex children.length s i) default) pos with
      | true =>
        rw [if_pos rfl]
        refine ⟨fun hcontra => absurd hcontra (by simp), fun j hj => ?_⟩
        have hjeq : j = bwdIndex children.length s i :=
          (Option.some.inj hj).symm
        subst hjeq
        have hd : cdist children.length s (bwdIndex children.length s i) = i :=
          cdist_bwd children.length s i hs hi1 hi2
        refine ⟨Nat.mod_lt _ hn, h2, ?_, Or.inr ⟨?_, ?_⟩⟩
        · rw [hd]
          exact hinv
        · rw [hd]
          exact h1
        · rw [hd]
      | false =>
        rw [if_neg (by simp)]
        refine ih (i + 1) (by omega) (by omega) ?_
        intro k hk hck
        rcases Nat.lt_or_ge (cdist children.length s k) i with hlt | hge
        · exact hinv k hk hlt
        · have hdk : cdist children.length s k = i := by omega
          have hne : k ≠ s := by
            intro he
            rw [he, cdist_self children.length s hs] at hdk
            omega
          rcases cdist_cases children.length s k hs hk hne with hc | hc
          · rw [hdk] at hc
            rw [hc]
            exact h1
          · rw [hdk] at hc
            rw [hc]
            exact h2

end C9

/-- C9.  For a non-empty children array and a valid start index,
`findOverlappingIndex` returns `undefined` (`none`) exactly when no child
overlaps the container's alignment position; otherwise it returns an
overlapping child of minimal circular distance from `startIndex`,
returning `startIndex` itself when that child overlaps, and the forward
candidate `startIndex + i` whenever a distinct overlapping child sits at
the same (minimal) distance. -/
theorem findOverlappingIndex_spec (axis : Axis) (alignment : Alignment)
    (container : Rect) (children : List Rect) (startIndex : Nat)
    (hs : startIndex < children.length) :
    (findOverlappingIndex axis alignment container children startIndex =
        none ↔
      ∀ k, k < children.length →
        overlaps axis (children.getD k default)
          (getPosition axis alignment container) = false) ∧
    (overlaps axis (children.getD startIndex default)
        (getPosition axis alignment container) = true →
      findOverlappingIndex axis alignment container children startIndex =
        some startIndex) ∧
    (∀ j, findOverlappingIndex axis alignment container children startIndex =
        some j →
      j < children.length ∧
      overlaps axis (children.getD j default)
        (getPosition axis alignment container) = true ∧
      (∀ k, k < children.length →
        overlaps axis (children.getD k default)
          (getPosition axis alignment container) = true →
        cdist children.length startIndex j ≤
          cdist children.length startIndex k) ∧
      (∀ k, k < children.length →
        overlaps axis (children.getD k default)
          (getPosition axis alignment container) = true →
        cdist children.length startIndex k =
          cdist children.length startIndex j →
        k ≠ j →
        j = fwdIndex children.length startIndex
          (cdist children.length startIndex j))) := by
  have hn : 0 < children.length := by omega
  simp only [findOverlappingIndex]
  cases h0 : overlaps axis (children.getD startIndex default)
      (getPosition axis alignment container) with
  | true =>
    rw [if_pos rfl]
    refine ⟨⟨fun h => Option.noConfusion h,
      fun hall => absurd (hall startIndex hs) (by rw [h0]; simp)⟩,
      fun _ => rfl, fun j hj => ?_⟩
    have hjeq : startIndex = j := Option.some.inj hj
    subst hjeq
    refine ⟨hs, h0, ?_, ?_⟩
    · intro k hk _
      rw [C9.cdist_self children.length startIndex hs]
      exact Nat.zero_le _
    · intro k hk _ _ _
      rw [C9.cdist_self children.length startIndex hs]
      unfold fwdIndex
      rw [Nat.add_zero, Nat.mod_eq_of_lt hs]
  | false =>
    rw [if_neg (by simp)]
    have hinv1 : ∀ k, k < children.length →
        cdist children.length startIndex k < 1 →
        overlaps axis (children.getD k default)
          (getPosition axis alignment container) = false := by
      intro k hk hck
      have hk0 : cdist children.length startIndex k = 0 := by omega
      rw [C9.cdist_eq_zero children.length startIndex k hs hk hk0]
      exact h0
    have H := C9.findOverlappingIndexAux_spec axis
      (getPosition axis alignment container) children startIndex hs
      (children.length / 2) 1 (le_refl 1) (by omega) hinv1
    refine ⟨⟨H.1, fun hall => ?_⟩, fun hc => Bool.noConfusion hc,
      fun j hj => ?_⟩
    · cases haux : findOverlappingIndexAux axis
          (getPosition axis alignment container) children startIndex 1
          (children.length / 2) with
      | none => rfl
      | some j =>
        have hjfacts := H.2 j haux
        exact absurd (hall j hjfacts.1) (by rw [hjfacts.2.1]; simp)
    · have hjfacts := H.2 j hj
      refine ⟨hjfacts.1, hjfacts.2.1, ?_, ?_⟩
      · intro k hk hov
        by_contra hcon
        have hlt : cdist children.length startIndex k <
            cdist children.length startIndex j := by omega
        exact absurd hov (by rw [hjfacts.2.2.1 k hk hlt]; simp)
      · intro k hk hov hck hkj
        rcases hjfacts.2.2.2 with hc | ⟨hfw, hbw⟩
        · exact hc
        · have hdj1 : 1 ≤ cdist children.length startIndex j := by
            by_contra hz
            have hz0 : cdist children.length startIndex j = 0 := by omega
            have hk0 : cdist children.length startIndex k = 0 := by omega
            have hjs := C9.cdist_eq_zero children.length startIndex j hs
              hjfacts.1 hz0
            have hks := C9.cdist_eq_zero children.length startIndex k hs hk
              hk0
            exact hkj (hks.trans hjs.symm)
          have hks : k ≠ startIndex := by
            intro he
            rw [he, C9.cdist_self children.length startIndex hs] at hck
            omega
          rcases C9.cdist_cases children.length startIndex k hs hk hks
            with hc2 | hc2
          · rw [hck] at hc2
            rw [hc2] at hov
            exact absurd hov (by rw [hfw]; simp)
          · rw [hck] at hc2
            rw [← hbw] at hc2
            exact absurd hc2 hkj

/-- C9 witness: three unit slides at positions 0, 1, 2 along the X axis,
a container whose start point is 1, and start index 0: the search reports
index 1, which indeed overlaps the container position. -/
theorem findOverlappingIndex_spec_witness :
    findOverlappingIndex Axis.X Alignment.START containerRect
        [slide0, slide1, slide2] 0 = some 1 ∧
      overlaps Axis.X
        ([slide0, slide1, slide2].getD 1 default)
        (getPosition Axis.X Alignment.START containerRect) = true := by
  have H := findOverlappingIndex_spec Axis.X Alignment.START containerRect
    [slide0, slide1, slide2] 0 (by decide)
  have hfind : findOverlappingIndex Axis.X Alignment.START containerRect
      [slide0, slide1, slide2] 0 = some 1 := by decide
  exact ⟨hfind, (H.2.2 1 hfind).2.1⟩

end Carousel

namespace Facebook

/-- C1.  The claim says that, after layout has attached the iframe, a
message event from it whose data is the JSON-encoded string for
`{action: 'ready'}` makes `handleFacebookMessages_` call
`toggleLoading(false)`.  The code does not: it parses the string
successfully (so the parse guard passes), but then reads
`eventData['action']` on the raw string instead of
`parsedEventData['action']`; property access on a string yields
`undefined`, the `'ready'` comparison fails, and the handler leaves the
state unchanged without calling `toggleLoading`. -/
theorem ready_json_string_does_not_toggle_loading
    (jsonParse : String → Option JSVal) (testMode : Bool) (st : FBState)
    (w : Nat) (hif : st.iframe = some w)
    (hp : jsonParse readyJson = some readyObj) :
    tryParseJson jsonParse (.str readyJson) = some readyObj ∧
      optTruthy (tryParseJson jsonParse (.str readyJson)) = true ∧
      getProp (.str readyJson) "action" = .undefined ∧
      handleFacebookMessages jsonParse testMode st ⟨w, .str readyJson⟩ =
        (st, false) := by
  refine ⟨by simp [tryParseJson, hp], by simp [tryParseJson, hp, optTruthy,
    readyObj, truthy], rfl, ?_⟩
  simp [handleFacebookMessages, hif, foreignSource, handleEventData, truthy,
    isObject, tryParseJson, hp, optTruthy, readyObj, getProp, looseEqStr,
    readyJson]

/-- C1 witness: with the host parser defined at the one relevant string,
the ready message from the attached iframe parses fine yet leaves the
freshly-loaded state (loading indicator on) unchanged. -/
theorem ready_json_string_does_not_toggle_loading_witness :
    tryParseJson readyOnlyParse (.str readyJson) = some readyObj ∧
      optTruthy (tryParseJson readyOnlyParse (.str readyJson)) = true ∧
      getProp (.str readyJson) "action" = .undefined ∧
      handleFacebookMessages readyOnlyParse true loadedState
        ⟨1, .str readyJson⟩ = (loadedState, false) :=
  ready_json_string_does_not_toggle_loading readyOnlyParse true loadedState 1
    rfl (by simp [readyOnlyParse])

/-- C5 counterexample: the claim says the assertion fails for every
present `data-embed-as` value outside `post`/`video`/`comment`, but the
empty string is such a value and the assertion passes on it (the empty
string is falsy, so `!embedAs` short-circuits the check): layout
proceeds. -/
theorem embedAs_empty_counterexample :
    ("" ∈ (["post", "video", "comment"] : List String) → False) ∧
      layoutValidationPasses (some "") = true ∧
      (layoutCallback false (some "") 0 initialState).isSome = true := by
  refine ⟨by decide, by decide, by decide⟩

/-- C5 (amended): `layoutCallback` raises the user assertion error (here:
returns `none`) exactly when `data-embed-as` is present with a nonempty
value other than `'post'`, `'video'` or `'comment'`; when the attribute
is absent, empty, or one of those three values, the assertion passes and
layout proceeds, attaching the iframe and turning the loading indicator
on. -/
theorem layoutCallback_validation (testMode : Bool) (embedAs : Option String)
    (w : Nat) (st : FBState) :
    (layoutCallback testMode embedAs w st = none ↔
      ∃ s, embedAs = some s ∧ s ≠ "" ∧
        s ∉ (["post", "video", "comment"] : List String)) ∧
    (layoutValidationPasses embedAs = true →
      ∃ st2, layoutCallback testMode embedAs w st = some st2 ∧
        st2.iframe = some w ∧ st2.loading = true) := by
  have hpass : layoutValidationPasses embedAs = false ↔
      ∃ s, embedAs = some s ∧ s ≠ "" ∧
        s ∉ (["post", "video", "comment"] : List String) := by
    cases embedAs with
    | none => simp [layoutValidationPasses]
    | some s => simp [layoutValidationPasses]
  constructor
  · rw [← hpass, layoutCallback]
    cases h : layoutValidationPasses embedAs <;> simp [h]
  · intro h
    refine ⟨{ st with
        iframe := some w
        loading := true
        toggleLoadingCounter :=
          if testMode then st.toggleLoadingCounter + 1
          else st.toggleLoadingCounter }, ?_, rfl, rfl⟩
    simp [layoutCallback, h]

/-- C5 (amended) witness: the value `post` passes validation, and layout
proceeds from the initial state, attaching the iframe. -/
theorem layoutCallback_validation_witness :
    ∃ st2, layoutCallback false (some "post") 7 initialState = some st2 ∧
      st2.iframe = some 7 ∧ st2.loading = true :=
  (layoutCallback_validation false (some "post") 7 initialState).2 (by decide)

/-- C6.  Defensive null/parse guards of `handleFacebookMessages_`: for a
message whose data is `undefined` or `null`, or whose data is a
(non-object) string that does not parse as JSON, the handler returns
early and the state is unchanged — `toggleLoading` is not called and
`toggleLoadingCounter_` is not incremented. -/
theorem handler_defensive_guards (jsonParse : String → Option JSVal)
    (testMode : Bool) (st : FBState) (source : Nat) (data : JSVal)
    (h : data = .undefined ∨ data = .nullv ∨
      ∃ s, data = .str s ∧ jsonParse s = none) :
    handleFacebookMessages jsonParse testMode st ⟨source, data⟩ =
      (st, false) := by
  rw [handleFacebookMessages]
  cases hf : foreignSource st.iframe source
  · rcases h with h | h | ⟨s, hs, hp⟩
    · subst h; rfl
    · subst h; rfl
    · subst hs
      by_cases he : s = ""
      · subst he; rfl
      · simp [handleEventData, truthy, he, isObject, tryParseJson, hp,
          optTruthy]
  · simp

/-- C6 witness: a `null`-data message against the loaded state (with a
trivially failing parser) leaves the state unchanged. -/
theorem handler_defensive_guards_witness :
    handleFacebookMessages (fun _ => none) false loadedState ⟨1, .nullv⟩ =
      (loadedState, false) :=
  handler_defensive_guards (fun _ => none) false loadedState 1 .nullv
    (Or.inr (Or.inl rfl))

/-- C8.  After `layoutCallback` attaches the iframe, the registered
`embed-size` listener resizes the container: for a message whose data
carries a `height` property, the component's height becomes exactly that
property's value (`forceChangeHeight(data['height'])`), and the iframe,
loading flag and counter are untouched. -/
theorem embed_size_resizes (testMode : Bool) (embedAs : Option String)
    (w : Nat) (st st2 : FBState) (h : JSVal) (rest : List (String × JSVal))
    (hl : layoutCallback testMode embedAs w st = some st2) :
    (embedSizeListener st2 (.obj (("height", h) :: rest))).height =
      some h ∧
    (embedSizeListener st2 (.obj (("height", h) :: rest))).iframe =
      some w ∧
    (embedSizeListener st2 (.obj (("height", h) :: rest))).loading =
      st2.loading ∧
    (embedSizeListener st2
        (.obj (("height", h) :: rest))).toggleLoadingCounter =
      st2.toggleLoadingCounter := by
  have hw : st2.iframe = some w := by
    rw [layoutCallback] at hl
    split at hl
    · injection hl with h2
      rw [← h2]
    · exact Option.noConfusion hl
  refine ⟨?_, ?_, rfl, rfl⟩
  · simp [embedSizeListener, getProp, List.lookup]
  · simpa [embedSizeListener] using hw

/-- C8 witness: after layout attached the iframe with content window 1, an
embed-size message of height 300 sets the component height to 300. -/
theorem embed_size_resizes_witness :
    (embedSizeListener loadedState (.obj [("height", .num 300)])).height =
      some (.num 300) ∧
    (embedSizeListener loadedState (.obj [("height", .num 300)])).iframe =
      some 1 ∧
    (embedSizeListener loadedState (.obj [("height", .num 300)])).loading =
      loadedState.loading ∧
    (embedSizeListener
        loadedState (.obj [("height", .num 300)])).toggleLoadingCounter =
      loadedState.toggleLoadingCounter :=
  embed_size_resizes false none 1 initialState loadedState (.num 300) [] rfl

/-- `handleFacebookMessages_` never changes the `iframe_` field. -/
theorem handleFacebookMessages_preserves_iframe
    (jsonParse : String → Option JSVal) (testMode : Bool) (st : FBState)
    (ev : MessageEvent) :
    ((handleFacebookMessages jsonParse testMode st ev).1).iframe =
      st.iframe := by
  rw [handleFacebookMessages]
  split
  · rfl
  · simp only [handleEventData]
    repeat' split
    all_goals rfl

/-- While the iframe is attached, a message whose source is not the
iframe's content window is ignored outright. -/
theorem foreign_message_ignored (jsonParse : String → Option JSVal)
    (testMode : Bool) (st : FBState) (w src : Nat) (data : JSVal)
    (hif : st.iframe = some w) (hsrc : src ≠ w) :
    handleFacebookMessages jsonParse testMode st ⟨src, data⟩ = (st, false) := by
  simp [handleFacebookMessages, hif, foreignSource, hsrc]

/-- One step of `runMessages`. -/
theorem runMessages_cons (jsonParse : String → Option JSVal)
    (testMode : Bool) (st : FBState) (ev : MessageEvent)
    (evs : List MessageEvent) :
    runMessages jsonParse testMode st (ev :: evs) =
      runMessages jsonParse testMode
        ((handleFacebookMessages jsonParse testMode st ev).1) evs := rfl

/-- C10.  Noninterference with foreign windows: while `iframe_` is
attached with content window `w`, inserting a message from any other
source anywhere into a run of message events leaves the final component
state (loading toggle and `toggleLoadingCounter_` included) exactly as if
the message had never been received. -/
theorem foreign_messages_cannot_affect_state
    (jsonParse : String → Option JSVal) (testMode : Bool) (st : FBState)
    (w src : Nat) (data : JSVal) (l1 l2 : List MessageEvent)
    (hif : st.iframe = some w) (hsrc : src ≠ w) :
    runMessages jsonParse testMode st (l1 ++ ⟨src, data⟩ :: l2) =
      runMessages jsonParse testMode st (l1 ++ l2) := by
  induction l1 generalizing st with
  | nil =>
    simp only [List.nil_append, runMessages_cons]
    rw [foreign_message_ignored jsonParse testMode st w src data hif hsrc]
  | cons ev l1 ih =>
    simp only [List.cons_append, runMessages_cons]
    exact ih _ (by
      rw [handleFacebookMessages_preserves_iframe jsonParse testMode st ev,
        hif])

/-- C10 witness: a ready-action object message from window 2 is discarded
while the attached iframe is window 1 — the run with it equals the empty
run. -/
theorem foreign_messages_cannot_affect_state_witness :
    runMessages readyOnlyParse true loadedState [⟨2, readyObj⟩] =
      runMessages readyOnlyParse true loadedState [] :=
  foreign_messages_cannot_affect_state readyOnlyParse true loadedState 1 2
    readyObj [] [] rfl (by decide)

end Facebook
